import Mathlib

/-!
# Verification of the fluent-libc CLI parser

A shallow embedding of the C sources under `src/` of `rodrigoo-r/cli`:

* `src/type/type.h`      — `cli_type_t`
* `src/value/value.h`    — `cli_value_t`, `cli_i_value_t`
* `src/app/app.h`        — `cli_app_t`, `cli_new_app`, `cli_has_value`,
                           `cli_insert_flag`, `cli_insert_command`
* `src/cli.h`            — `argv_t`, `argv_t_process_array`, `parse_argv`
* `src/help/generator.h` — `write_app_values`, `cli_generate_help`

Hashmaps (an external fluent-libc container keyed by C strings with
`strcmp`-equality, see `src/shared/str_cmp_fn.h`) are modelled as
association lists with unique keys: insertion replaces the value of an
existing key and otherwise appends, removal deletes the key, `count` is
the number of entries.  Allocation failures (`malloc`/`hashmap_new`
returning `NULL`) are external events outside the embedding: every
allocation is modelled as succeeding.  `NULL` C-string keys that the
parser can feed to a hashmap (it inserts flag values under the
`command_name` variable, which is `NULL` before a command was seen) are
modelled as an `Option String` key `none`.  A struct field the C code
returns without ever assigning (the `command` member on two early-return
paths) is modelled as `none`.
-/

namespace Cli

/-- `cli_type_t` from `src/type/type.h`. -/
inductive cli_type where
  | CLI_TYPE_STATIC
  | CLI_TYPE_STRING
  | CLI_TYPE_INTEGER
  | CLI_TYPE_FLOAT
  | CLI_TYPE_ARRAY
deriving DecidableEq, Repr

open cli_type

/-- `cli_value_t` from `src/value/value.h`: one schema entry
(description, kind, optional alias, required bit). -/
structure cli_value where
  description : String
  type : cli_type
  aliasName : Option String
  required : Bool
deriving DecidableEq, Repr

/-- `cli_new_value` from `src/value/value.h`. -/
def cli_new_value (description : String) (type : cli_type)
    (aliasName : Option String) (required : Bool) : cli_value :=
  { description := description, type := type, aliasName := aliasName, required := required }

/-- `cli_i_value_t` from `src/value/value.h`.  The `float_val` member is
filled by `atof`, an external conversion primitive; the model records the
token handed to the conversion (`none` standing for the initial `0.0`).
A freshly `malloc`ed cell whose remaining members the C code never
assigns is modelled with the zero-equivalent defaults below. -/
structure cli_i_value where
  value : Option String := none
  vec_value : Option (List String) := none
  num_val : Int := 0
  float_val : Option String := none
deriving DecidableEq, Repr

/-- Association-list model of a fluent-libc hashmap lookup
(`hashmap_*_get`). -/
def hmGet {K V : Type} [DecidableEq K] (m : List (K × V)) (k : K) : Option V :=
  match m with
  | [] => none
  | (k', v) :: rest => if k' = k then some v else hmGet rest k

/-- Association-list model of `hashmap_*_insert`: replace the value of an
existing key, otherwise append a fresh entry. -/
def hmInsert {K V : Type} [DecidableEq K] (m : List (K × V)) (k : K) (v : V) :
    List (K × V) :=
  match m with
  | [] => [(k, v)]
  | (k', v') :: rest =>
      if k' = k then (k', v) :: rest else (k', v') :: hmInsert rest k v

/-- Association-list model of `hashmap_*_remove`. -/
def hmRemove {K V : Type} [DecidableEq K] (m : List (K × V)) (k : K) :
    List (K × V) :=
  match m with
  | [] => []
  | (k', v') :: rest =>
      if k' = k then rest else (k', v') :: hmRemove rest k

/-- The hashmap's `count` member: number of stored entries. -/
def hmCount {K V : Type} (m : List (K × V)) : Nat := m.length

/-- `cli_app_t` from `src/app/app.h`: the application schema, holding the
`flags`, `commands` and (internal) `required_flags` hashmaps. -/
structure cli_app where
  flags : List (String × cli_value)
  commands : List (String × cli_value)
  required_flags : List (String × cli_value)
deriving DecidableEq, Repr

/-- `cli_new_app` from `src/app/app.h`, with the three hashmap
allocations modelled as succeeding: the fresh schema with three empty
maps. -/
def cli_new_app : cli_app :=
  { flags := [], commands := [], required_flags := [] }

/-- `cli_has_value` from `src/app/app.h`: a name exists if it resolves in
the flags hashmap or in the commands hashmap. -/
def cli_has_value (app : cli_app) (name : String) : Bool :=
  (hmGet app.flags name).isSome || (hmGet app.commands name).isSome

/-- `cli_insert_flag` from `src/app/app.h`.  Mirrors the C statement
order: the canonical name is inserted into `flags` *before* the alias is
checked for a collision, so the alias-collision early return leaves the
canonical key inserted.  The required entry is registered (under the
canonical name only) after the alias handling.  Returns the C `bool`
result paired with the schema after the call (the C mutates the maps in
place). -/
def cli_insert_flag (app : cli_app) (flag_name : String) (v : cli_value) :
    Bool × cli_app :=
  if cli_has_value app flag_name then
    (false, app)
  else
    let app1 : cli_app := { app with flags := hmInsert app.flags flag_name v }
    match v.aliasName with
    | some a =>
        if cli_has_value app1 a then
          (false, app1)
        else
          let app2 : cli_app := { app1 with flags := hmInsert app1.flags a v }
          if v.required then
            (true, { app2 with
                      required_flags := hmInsert app2.required_flags flag_name v })
          else
            (true, app2)
    | none =>
        if v.required then
          (true, { app1 with
                    required_flags := hmInsert app1.required_flags flag_name v })
        else
          (true, app1)

/-- `cli_insert_command` from `src/app/app.h`.  Same shape as
`cli_insert_flag` but into the `commands` map and with no
`required_flags` handling at all. -/
def cli_insert_command (app : cli_app) (command_name : String) (v : cli_value) :
    Bool × cli_app :=
  if cli_has_value app command_name then
    (false, app)
  else
    let app1 : cli_app := { app with commands := hmInsert app.commands command_name v }
    match v.aliasName with
    | some a =>
        if cli_has_value app1 a then
          (false, app1)
        else
          (true, { app1 with commands := hmInsert app1.commands a v })
    | none => (true, app1)

/-- `argv_t` from `src/cli.h`.  `command = none` models the two early
returns (`src/cli.h:275` and `src/cli.h:491`) that leave the struct's
`command` member unassigned; `statics` stores only the sentinel
`(cli_i_value_t *)1`, modelled as `Unit`.  Result-map keys are
`Option String` because the parser inserts under the C variable
`command_name`, which can be `NULL`. -/
structure argv_t where
  success : Bool
  command : Option cli_i_value
  statics : List (Option String × Unit)
  strings : List (Option String × cli_i_value)
  integers : List (Option String × cli_i_value)
  floats : List (Option String × cli_i_value)
  arrays : List (Option String × cli_i_value)
  cmd_ptr : Option cli_value
deriving DecidableEq, Repr

/-- Modelled from the spec: `atoi_convert` from fluent-libc's `atoi.h`
(not under `src/`): a permissive base-10 parse with an optional leading
sign, consuming digits as far as valid and yielding zero on total
failure.  Helper accumulating the leading digits. -/
def atoiDigits : List Char → Int → Int
  | [], acc => acc
  | c :: cs, acc =>
      if c.isDigit then atoiDigits cs (acc * 10 + (c.toNat - 48)) else acc

/-- Modelled from the spec: `atoi_convert` (fluent-libc `atoi.h`, not
under `src/`): optional leading `-`/`+` sign, then leading digits,
tolerating any non-digit suffix, zero when nothing parses. -/
def atoi_convert (s : String) : Int :=
  match s.data with
  | '-' :: cs => - atoiDigits cs 0
  | '+' :: cs => atoiDigits cs 0
  | cs => atoiDigits cs 0

/-- The parser's transient state in `parse_argv` (`src/cli.h:183-252`):
the result struct under construction, the mode booleans, the array
buffer, the two type registers, the current command name, and the schema
(whose `required_flags` map the parser mutates in place). -/
structure ParseState where
  statics : List (Option String × Unit)
  strings : List (Option String × cli_i_value)
  integers : List (Option String × cli_i_value)
  floats : List (Option String × cli_i_value)
  arrays : List (Option String × cli_i_value)
  command : cli_i_value
  cmd_ptr : Option cli_value
  waiting_value : Bool
  parsing_command : Bool
  parsing_array : Bool
  array_values : Option (List String)
  last_type : cli_type
  command_type : cli_type
  command_name : Option String
  app : cli_app
deriving DecidableEq, Repr

/-- The state at the top of `parse_argv`'s loop: empty result maps,
zero-initialised `command` cell, all mode flags clear
(`src/cli.h:183-252`). -/
def parse_init (app : cli_app) : ParseState :=
  { statics := [], strings := [], integers := [], floats := [], arrays := []
    command := {}
    cmd_ptr := none
    waiting_value := false
    parsing_command := false
    parsing_array := false
    array_values := none
    last_type := CLI_TYPE_STATIC
    command_type := CLI_TYPE_STATIC
    command_name := none
    app := app }

/-- An early `return parsed_args` from inside the loop: `success = 0`,
result maps as accumulated so far; `withCommand` tells whether the path
assigns `parsed_args.command = command` before returning (all failure
paths do except `src/cli.h:275` and `src/cli.h:491`). -/
def parse_fail (st : ParseState) (withCommand : Bool) : argv_t × cli_app :=
  ({ success := false
     command := if withCommand then some st.command else none
     statics := st.statics, strings := st.strings, integers := st.integers
     floats := st.floats, arrays := st.arrays, cmd_ptr := st.cmd_ptr },
   st.app)

/-- `src/cli.h:287/307` and `src/cli.h:310-359`: remove the stripped
name from `required_flags`, resolve it in `flags`, then dispatch on the
entry's type.  The static branch (`src/cli.h:345-351`) records the
presence entry keyed by the stripped name and clears `waiting_value`,
but then falls through to `src/cli.h:353-356`, which sets
`waiting_value` again and updates `last_type` for every non-array
kind.  `argv_t_process_array` (`src/cli.h:133-158`) is inlined with its
vector allocation succeeding: it sets `array_values` to a fresh empty
buffer and raises `parsing_array` and `waiting_value`. -/
def parse_step_flag (st : ParseState) (flag_name : String) :
    Except (argv_t × cli_app) ParseState :=
  let st := { st with app := { st.app with
    required_flags := hmRemove st.app.required_flags flag_name } }
  match hmGet st.app.flags flag_name with
  | none => .error (parse_fail st true)
  | some flag =>
      if flag.type = CLI_TYPE_ARRAY then
        .ok { st with
                array_values := some []
                parsing_array := true
                waiting_value := true }
      else
        let st :=
          if flag.type = CLI_TYPE_STATIC then
            { st with statics := hmInsert st.statics (some flag_name) () }
          else st
        .ok { st with
                parsing_command := false
                waiting_value := true
                last_type := flag.type }

/-- `src/cli.h:373-481`: consume a scalar value token.  `parse_type` is
the command's type when `parsing_command`, otherwise `last_type`; the
converted value goes into the `command` cell when `parsing_command`,
otherwise into a fresh cell inserted into the per-kind map keyed by the
C variable `command_name` (not the flag's name). -/
def parse_step_value (st : ParseState) (arg : String) :
    Except (argv_t × cli_app) ParseState :=
  let parse_type := if st.parsing_command then st.command_type else st.last_type
  let st' :=
    match parse_type with
    | CLI_TYPE_INTEGER =>
        let int_value := atoi_convert arg
        if st.parsing_command then
          Except.ok { st with
            command := { st.command with num_val := int_value }
            parsing_command := false }
        else
          Except.ok { st with
            integers := hmInsert st.integers st.command_name { num_val := int_value } }
    | CLI_TYPE_STATIC =>
        if st.parsing_command then
          Except.error (parse_fail st true)
        else
          Except.ok { st with statics := hmInsert st.statics st.command_name () }
    | CLI_TYPE_ARRAY =>
        -- src/cli.h:436-441 (unreachable: last_type is never ARRAY and
        -- an ARRAY command keeps parsing_array raised)
        Except.ok { st with array_values := st.array_values.map (fun v => v ++ [arg]) }
    | CLI_TYPE_STRING =>
        if st.parsing_command then
          Except.ok { st with
            command := { st.command with value := some arg }
            parsing_command := false }
        else
          Except.ok { st with
            strings := hmInsert st.strings st.command_name { value := some arg } }
    | CLI_TYPE_FLOAT =>
        -- atof is an external conversion primitive; the model records
        -- the token handed to it
        if st.parsing_command then
          Except.ok { st with
            command := { st.command with float_val := some arg }
            parsing_command := false }
        else
          Except.ok { st with
            floats := hmInsert st.floats st.command_name { float_val := some arg } }
  match st' with
  | .error r => .error r
  | .ok st'' =>
      -- src/cli.h:480: waiting_value = parse_type == CLI_TYPE_ARRAY
      .ok { st'' with waiting_value := parse_type = CLI_TYPE_ARRAY }

/-- The flag-token branch of the loop body (`src/cli.h:260-360`), on a
token whose first character is `-`; `rest` is the token after that
dash.  A token arriving while a value is awaited fails before any prefix
stripping (and hence before any `required_flags` removal); the bare `-`
token likewise fails before stripping.  The short-form emptiness check
at `src/cli.h:299` is unreachable here because `rest` is non-empty in
the short-form arm. -/
def parse_step_dash (st : ParseState) (rest : List Char) :
    Except (argv_t × cli_app) ParseState :=
  -- src/cli.h:263: a flag token while a scalar value is awaited
  if st.waiting_value && !st.parsing_array then
    .error (parse_fail st true)
  -- src/cli.h:272: a flag token while collecting array values
  else if st.waiting_value && st.parsing_array then
    .error (parse_fail st false)
  else
    let st := { st with parsing_array := false }
    match rest with
    | [] => .error (parse_fail st true)  -- src/cli.h:288: bare "-"
    | c2 :: rest2 =>
        if c2 = '-' then
          -- src/cli.h:281-287: long form, strip the leading "--"
          parse_step_flag st (String.mk rest2)
        else
          -- src/cli.h:293-307: short form, strip the leading "-"
          parse_step_flag st (String.mk (c2 :: rest2))

/-- The non-flag-token branch of the loop body (`src/cli.h:362-543`):
consume the token as an array element or scalar value if one is awaited,
otherwise as the command name (rejecting unknown commands), otherwise
reject it as a second command. -/
def parse_step_nonflag (st : ParseState) (arg : String) :
    Except (argv_t × cli_app) ParseState :=
  if st.waiting_value then
    if st.parsing_array then
      -- src/cli.h:366-371: append the raw token to the array buffer
      .ok { st with array_values := st.array_values.map (fun v => v ++ [arg]) }
    else
      parse_step_value st arg
  else if st.command_name = none then
    -- src/cli.h:488-493: re-check of waiting_value (dead here); its
    -- return path leaves the command member unassigned
    if st.waiting_value then
      .error (parse_fail st false)
    else
      let command_name := arg
      match hmGet st.app.commands command_name with
      | none => .error (parse_fail { st with command_name := some command_name } true)
      | some command_value =>
          let st := { st with
            command_name := some command_name
            command_type := command_value.type
            waiting_value := true
            parsing_array := command_value.type = CLI_TYPE_ARRAY
            parsing_command := true
            cmd_ptr := some command_value }
          if st.parsing_array then
            -- src/cli.h:517-536: argv_t_process_array on the command
            .ok { st with
                    array_values := some []
                    parsing_array := true
                    waiting_value := true }
          else
            .ok st
  else
    -- src/cli.h:537-543: a second bare token after the command
    .error (parse_fail st true)

/-- One iteration of the `for` loop of `parse_argv` (`src/cli.h:254-544`)
on argument `arg`: `.error` models an early `return parsed_args`, `.ok`
the fall-through to the next argument.  The C tests `arg[0] == '-'`; an
empty token reads the terminating `NUL` and takes the non-flag branch. -/
def parse_step (st : ParseState) (arg : String) :
    Except (argv_t × cli_app) ParseState :=
  match arg.data with
  | [] => parse_step_nonflag st arg
  | c :: rest =>
      if c = '-' then parse_step_dash st rest else parse_step_nonflag st arg


/-- The per-token loop of `parse_argv` over the arguments after the
program name: `.ok` when the loop runs to completion, `.error` when some
iteration returned early. -/
def parse_loop (args : List String) (st : ParseState) :
    Except (argv_t × cli_app) ParseState :=
  match args with
  | [] => .ok st
  | a :: rest =>
      match parse_step st a with
      | .error r => .error r
      | .ok st' => parse_loop rest st'

/-- The termination check after the loop (`src/cli.h:546-558`): failure
when a scalar value is still awaited outside array mode, or no command
was seen, or `required_flags` is non-empty; otherwise success. -/
def parse_finish (st : ParseState) : argv_t × cli_app :=
  if (st.waiting_value && !st.parsing_array) || st.command_name = none
      || hmCount st.app.required_flags ≠ 0 then
    parse_fail st true
  else
    ({ success := true
       command := some st.command
       statics := st.statics, strings := st.strings, integers := st.integers
       floats := st.floats, arrays := st.arrays, cmd_ptr := st.cmd_ptr },
     st.app)

/-- `parse_argv` from `src/cli.h:181-559`: walk `argv` (skipping the
program name at index 0) against the schema, returning the parse result
paired with the schema after the call (the C mutates the schema's
`required_flags` map in place).  The five hashmap allocations at
`src/cli.h:192-241` are modelled as succeeding. -/
def parse_argv (argv : List String) (app : cli_app) : argv_t × cli_app :=
  match parse_loop (argv.drop 1) (parse_init app) with
  | .error r => r
  | .ok st => parse_finish st

/-! ## Help generator (`src/help/generator.h`)

String builders are modelled as plain string concatenation; `str_pad`
(fluent-libc, not under `src/`) is modelled from the spec: it pads the
collected name column on the right up to the padding width. -/

/-- Modelled from the spec: `str_pad` from fluent-libc's `str_pad.h`
(not under `src/`): right-pad `s` with spaces to width `n`. -/
def str_pad (n : Nat) (s : String) : String :=
  s ++ String.mk (List.replicate (n - s.length) ' ')

/-- The ` (string)` / ` (integer)` / ` (float)` / ` (array)` suffix
written by `write_app_values` (`src/help/generator.h:110-130`); empty
for the static kind. -/
def cli_type_suffix (t : cli_type) : String :=
  match t with
  | CLI_TYPE_STATIC => ""
  | CLI_TYPE_STRING => " (string)"
  | CLI_TYPE_INTEGER => " (integer)"
  | CLI_TYPE_FLOAT => " (float)"
  | CLI_TYPE_ARRAY => " (array)"

/-- One iteration of the `write_app_values` loop
(`src/help/generator.h:59-138`) on the hashmap entry `(key, value)`:
entries visited under their alias key (alias equal to the key) are
skipped; otherwise the flag/command line is appended to the builder. -/
def write_app_value_entry (is_flag : Bool) (padding_size : Nat)
    (acc : String) (key : String) (value : cli_value) : String :=
  if value.aliasName.isSome && value.aliasName = some key then
    acc
  else
    let acc := if is_flag then acc ++ "  --" else acc
    let value_builder := key ++
      (match value.aliasName with
       | some a => (if is_flag then ", -" else ", ") ++ a
       | none => "")
    acc ++ str_pad padding_size value_builder ++ value.description ++
      cli_type_suffix value.type ++ "\n"

/-- `write_app_values` from `src/help/generator.h:52-139`: iterate the
hashmap in entry order, appending one line per distinct entry. -/
def write_app_values (map : List (String × cli_value)) (is_flag : Bool)
    (padding_size : Nat) : String :=
  map.foldl (fun acc e => write_app_value_entry is_flag padding_size acc e.1 e.2) ""

/-- `cli_generate_help` from `src/help/generator.h:152-203`.  The C
receives pointers that may be `NULL` (`app`, `name`, `desc`, and the
schema's map pointers, the latter collapsed into the absent-schema case
since the model's maps always exist); it returns the generated text, or
`NULL` when any required input is absent.  The second component of the
result is the schema as left behind by the call: the function only ever
reads the schema (it is `const` and only iterated), which the model
reflects by returning the input schema on every path. -/
def cli_generate_help (app : Option cli_app) (name : Option String)
    (desc : Option String) (padding_size : Nat) :
    Option String × Option cli_app :=
  match app, name, desc with
  | some a, some n, some d =>
      let builder := n ++ " - " ++ d ++ "\n\nUsage: " ++ n ++
        " [flags...] <command> [flags...] <value> [flags...]\n\n"
      let builder :=
        if hmCount a.flags > 0 then
          builder ++ "AVAILABLE FLAGS:\n" ++ write_app_values a.flags true padding_size
        else builder
      let builder :=
        if hmCount a.commands > 0 then
          builder ++ "\nAVAILABLE COMMANDS:\n" ++ write_app_values a.commands false padding_size
        else builder
      (some builder, some a)
  | _, _, _ => (none, app)

/-! ## Concrete schemas used by the claims -/

/-- The spec's scenario-1 schema entry for `--verbose`/`-v` (STATIC, not
required). -/
def verboseEntry : cli_value :=
  cli_new_value "Enable verbose output" CLI_TYPE_STATIC (some "v") false

/-- The spec's scenario-1 schema entry for the `build` command
(STRING). -/
def buildEntry : cli_value :=
  cli_new_value "Build a target" CLI_TYPE_STRING none false

/-- The spec's scenario-1 schema: flag `--verbose`/`-v` (STATIC) and
command `build` (STRING), registered through the schema API. -/
def scenario1App : cli_app :=
  (cli_insert_command (cli_insert_flag cli_new_app "verbose" verboseEntry).2
    "build" buildEntry).2

/-- A required STRING flag `--out` with alias `-o`. -/
def outEntry : cli_value :=
  cli_new_value "Output file" CLI_TYPE_STRING (some "o") true

/-- Schema with the required flag `--out`/`-o` (STRING) and the command
`build` (STRING). -/
def requiredApp : cli_app :=
  (cli_insert_command (cli_insert_flag cli_new_app "out" outEntry).2
    "build" buildEntry).2

/-- An ARRAY flag `--tags`. -/
def tagsEntry : cli_value :=
  cli_new_value "Tag list" CLI_TYPE_ARRAY none false

/-- A STATIC flag `-x` with no alias. -/
def xEntry : cli_value :=
  cli_new_value "Extra flag" CLI_TYPE_STATIC none false

/-- Schema with the ARRAY flag `--tags`, the STATIC flag `-x` and the
command `build` (STRING). -/
def arrayApp : cli_app :=
  (cli_insert_command
    (cli_insert_flag (cli_insert_flag cli_new_app "tags" tagsEntry).2 "x" xEntry).2
    "build" buildEntry).2

/-- An INTEGER flag `-n` with no alias. -/
def nEntry : cli_value :=
  cli_new_value "A number" CLI_TYPE_INTEGER none false

/-- The `run` command (STRING). -/
def runEntry : cli_value :=
  cli_new_value "Run a target" CLI_TYPE_STRING none false

/-- Schema with the INTEGER flag `-n` and the command `run` (STRING). -/
def integerApp : cli_app :=
  (cli_insert_command (cli_insert_flag cli_new_app "n" nEntry).2
    "run" runEntry).2

/-- A STRING flag `-a` with no alias, not required. -/
def aEntry : cli_value :=
  cli_new_value "Some value" CLI_TYPE_STRING none false

/-- Schema with the STRING flag `-a`, the required STRING flag `--out`
and the command `build` (STRING). -/
def awaitApp : cli_app :=
  (cli_insert_command
    (cli_insert_flag (cli_insert_flag cli_new_app "a" aEntry).2 "out" outEntry).2
    "build" buildEntry).2

/-- A STATIC schema entry whose alias collides with the already
registered name `a`. -/
def bAliasEntry : cli_value :=
  cli_new_value "Colliding alias" CLI_TYPE_STATIC (some "a") false

/-- A mid-parse state awaiting the scalar value of the STRING flag
`-a`: the state reached after `prog -a` against `awaitApp`. -/
def c10WaitState : ParseState :=
  { parse_init awaitApp with
      waiting_value := true
      last_type := CLI_TYPE_STRING }

/-- A mid-parse state in array-collection mode: the state reached after
`prog build t --tags a` against `arrayApp` (command seen, array buffer
holding `"a"`, both `waiting_value` and `parsing_array` raised). -/
def c4WitnessState : ParseState :=
  { parse_init arrayApp with
      waiting_value := true
      parsing_array := true
      array_values := some ["a"]
      command_name := some "build"
      command_type := CLI_TYPE_STRING }

/-! ## Observation helpers on a loop iteration's outcome -/

/-- The stripped flag name of a token as computed at `src/cli.h:281-307`:
`some` of the characters after the leading `--` (long form) or `-`
(short form); `none` for the bare `-` token and for non-flag tokens. -/
def stripName (t : String) : Option String :=
  match t.data with
  | [] => none
  | c :: rest =>
      if c = '-' then
        match rest with
        | [] => none
        | c2 :: rest2 =>
            if c2 = '-' then some (String.mk rest2) else some (String.mk rest)
      else none

/-- The schema as left behind by one loop iteration, on both the
early-return and the fall-through outcome. -/
def stepApp (e : Except (argv_t × cli_app) ParseState) : cli_app :=
  match e with
  | .error r => r.2
  | .ok st => st.app

/-- The `arrays` result map as accumulated after one loop iteration, on
both outcomes. -/
def stepArrays (e : Except (argv_t × cli_app) ParseState) :
    List (Option String × cli_i_value) :=
  match e with
  | .error r => r.1.arrays
  | .ok st => st.arrays

/-- The `statics` result map as accumulated after one loop iteration, on
both outcomes. -/
def stepStatics (e : Except (argv_t × cli_app) ParseState) :
    List (Option String × Unit) :=
  match e with
  | .error r => r.1.statics
  | .ok st => st.statics

/-- Whether one loop iteration fell through to the next argument
(`true`) or returned early (`false`). -/
def stepOk (e : Except (argv_t × cli_app) ParseState) : Bool :=
  match e with
  | .error _ => false
  | .ok _ => true

/-- The success bit as observable after one loop iteration: the returned
result's `success` on an early return, `true` while the loop is still
running. -/
def stepSuccess (e : Except (argv_t × cli_app) ParseState) : Bool :=
  match e with
  | .error r => r.1.success
  | .ok _ => true

/-! ## Helper lemmas -/

theorem hmGet_hmRemove_ne {K V : Type} [DecidableEq K]
    (m : List (K × V)) {k n : K} (h : k ≠ n) :
    hmGet (hmRemove m k) n = hmGet m n := by
  induction m with
  | nil => rfl
  | cons e rest ih =>
      obtain ⟨k', v'⟩ := e
      by_cases hk : k' = k
      · subst hk
        simp [hmRemove, hmGet, h]
      · by_cases hn : k' = n <;>
          simp [hmRemove, hmGet, hk, hn, ih, Ne.symm h]

theorem hmGet_isSome_ne_nil {K V : Type} [DecidableEq K]
    {m : List (K × V)} {n : K} (h : (hmGet m n).isSome) : m ≠ [] := by
  intro he
  subst he
  simp [hmGet] at h

theorem parse_fail_success (st : ParseState) (b : Bool) :
    (parse_fail st b).1.success = false := rfl

theorem parse_fail_arrays (st : ParseState) (b : Bool) :
    (parse_fail st b).1.arrays = st.arrays := rfl

theorem parse_fail_app (st : ParseState) (b : Bool) :
    (parse_fail st b).2 = st.app := rfl

theorem parse_step_value_app (st : ParseState) (a : String) :
    stepApp (parse_step_value st a) = st.app := by
  unfold parse_step_value
  cases hpc : st.parsing_command <;> cases hct : st.command_type <;>
    cases hlt : st.last_type <;> simp [stepApp, parse_fail]

theorem parse_step_nonflag_app (st : ParseState) (a : String) :
    stepApp (parse_step_nonflag st a) = st.app := by
  unfold parse_step_nonflag
  cases hw : st.waiting_value
  · by_cases hc : st.command_name = none
    · cases hget : hmGet st.app.commands a
      · simp [hw, hc, hget, stepApp, parse_fail]
      · rename_i cv
        cases hty : cv.type <;> simp [hw, hc, hget, hty, stepApp]
    · simp [hw, hc, stepApp, parse_fail]
  · cases hpa : st.parsing_array
    · simpa [hw, hpa] using parse_step_value_app st a
    · simp [hw, hpa, stepApp]

theorem parse_step_flag_app (st : ParseState) (f : String) :
    stepApp (parse_step_flag st f) =
      { st.app with required_flags := hmRemove st.app.required_flags f } := by
  unfold parse_step_flag
  cases hget : hmGet st.app.flags f
  · simp [hget, stepApp, parse_fail]
  · rename_i flag
    cases hty : flag.type <;> simp [hget, hty, stepApp]

theorem parse_step_dash_app_not_waiting (st : ParseState) (rest : List Char)
    (hw : st.waiting_value = false) :
    stepApp (parse_step_dash st rest) =
      (match rest with
       | [] => st.app
       | c2 :: rest2 =>
          if c2 = '-' then
            { st.app with required_flags := hmRemove st.app.required_flags (String.mk rest2) }
          else
            { st.app with required_flags := hmRemove st.app.required_flags (String.mk (c2 :: rest2)) }) := by
  unfold parse_step_dash
  simp [hw]
  match rest with
  | [] => simp [stepApp, parse_fail]
  | c2 :: rest2 =>
      by_cases h2 : c2 = '-' <;> simp [h2, parse_step_flag_app]

theorem parse_step_dash_app_waiting (st : ParseState) (rest : List Char)
    (hw : st.waiting_value = true) :
    stepApp (parse_step_dash st rest) = st.app := by
  unfold parse_step_dash
  cases hpa : st.parsing_array <;> simp [hw, hpa, stepApp, parse_fail]

theorem parse_step_value_arrays (st : ParseState) (a : String) :
    stepArrays (parse_step_value st a) = st.arrays := by
  unfold parse_step_value
  cases hpc : st.parsing_command <;> cases hct : st.command_type <;>
    cases hlt : st.last_type <;> simp [stepArrays, parse_fail]

theorem parse_step_nonflag_arrays (st : ParseState) (a : String) :
    stepArrays (parse_step_nonflag st a) = st.arrays := by
  unfold parse_step_nonflag
  cases hw : st.waiting_value
  · by_cases hc : st.command_name = none
    · cases hget : hmGet st.app.commands a
      · simp [hw, hc, hget, stepArrays, parse_fail]
      · rename_i cv
        cases hty : cv.type <;> simp [hw, hc, hget, hty, stepArrays]
    · simp [hw, hc, stepArrays, parse_fail]
  · cases hpa : st.parsing_array
    · simpa [hw, hpa] using parse_step_value_arrays st a
    · simp [hw, hpa, stepArrays]

theorem parse_step_flag_arrays (st : ParseState) (f : String) :
    stepArrays (parse_step_flag st f) = st.arrays := by
  unfold parse_step_flag
  cases hget : hmGet st.app.flags f
  · simp [hget, stepArrays, parse_fail]
  · rename_i flag
    cases hty : flag.type <;> simp [hget, hty, stepArrays]

theorem parse_step_dash_arrays (st : ParseState) (rest : List Char) :
    stepArrays (parse_step_dash st rest) = st.arrays := by
  unfold parse_step_dash
  cases hw : st.waiting_value
  · cases rest with
    | nil => simp [stepArrays, parse_fail]
    | cons c2 rest2 =>
        by_cases h2 : c2 = '-'
        · simpa [h2] using
            parse_step_flag_arrays
              { st with waiting_value := false, parsing_array := false }
              (String.mk rest2)
        · simpa [h2] using
            parse_step_flag_arrays
              { st with waiting_value := false, parsing_array := false }
              (String.mk (c2 :: rest2))
  · cases hpa : st.parsing_array <;> simp [hpa, stepArrays, parse_fail]

theorem parse_step_arrays (st : ParseState) (t : String) :
    stepArrays (parse_step st t) = st.arrays := by
  unfold parse_step
  cases ht : t.data with
  | nil => exact parse_step_nonflag_arrays st t
  | cons c rest =>
      by_cases hc : c = '-'
      · simp only [hc, if_pos]
        exact parse_step_dash_arrays st rest
      · simp only [hc, if_neg, ite_false]
        exact parse_step_nonflag_arrays st t

theorem parse_step_value_error_success (st : ParseState) (a : String)
    (r : argv_t × cli_app) (h : parse_step_value st a = .error r) :
    r.1.success = false := by
  unfold parse_step_value at h
  cases hpc : st.parsing_command <;> cases hct : st.command_type <;>
    cases hlt : st.last_type <;> simp [hpc, hct, hlt, parse_fail] at h <;>
    simp [← h, parse_fail]

theorem parse_step_nonflag_error_success (st : ParseState) (a : String)
    (r : argv_t × cli_app) (h : parse_step_nonflag st a = .error r) :
    r.1.success = false := by
  unfold parse_step_nonflag at h
  cases hw : st.waiting_value
  · by_cases hc : st.command_name = none
    · cases hget : hmGet st.app.commands a
      · simp [hw, hc, hget, parse_fail] at h
        simp [← h, parse_fail]
      · rename_i cv
        cases hty : cv.type <;> simp [hw, hc, hget, hty] at h
    · simp [hw, hc, parse_fail] at h
      simp [← h, parse_fail]
  · cases hpa : st.parsing_array
    · simp [hw, hpa] at h
      exact parse_step_value_error_success _ _ _ h
    · simp [hw, hpa] at h

theorem parse_step_flag_error_success (st : ParseState) (f : String)
    (r : argv_t × cli_app) (h : parse_step_flag st f = .error r) :
    r.1.success = false := by
  unfold parse_step_flag at h
  cases hget : hmGet st.app.flags f
  · simp [hget] at h
    simp [← h, parse_fail]
  · rename_i flag
    cases hty : flag.type <;> simp [hget, hty] at h

theorem parse_step_dash_error_success (st : ParseState) (rest : List Char)
    (r : argv_t × cli_app) (h : parse_step_dash st rest = .error r) :
    r.1.success = false := by
  unfold parse_step_dash at h
  cases hw : st.waiting_value <;> cases hpa : st.parsing_array <;>
    simp [hw, hpa] at h <;>
    first
    | (simp [← h, parse_fail])
    | (cases rest with
       | nil =>
           simp at h
           simp [← h, parse_fail]
       | cons c2 rest2 =>
           by_cases h2 : c2 = '-' <;> simp [h2] at h <;>
             exact parse_step_flag_error_success _ _ _ h)

theorem parse_step_error_success (st : ParseState) (t : String)
    (r : argv_t × cli_app) (h : parse_step st t = .error r) :
    r.1.success = false := by
  unfold parse_step at h
  cases ht : t.data with
  | nil =>
      rw [ht] at h
      exact parse_step_nonflag_error_success _ _ _ h
  | cons c rest =>
      rw [ht] at h
      by_cases hc : c = '-' <;> simp [hc] at h
      · exact parse_step_dash_error_success _ _ _ h
      · exact parse_step_nonflag_error_success _ _ _ h

theorem String_mk_data (s : String) : String.mk s.data = s := rfl

theorem parse_step_required_get (st : ParseState) (t : String) (n : String)
    (h : stripName t ≠ some n) :
    hmGet (stepApp (parse_step st t)).required_flags n =
      hmGet st.app.required_flags n := by
  unfold parse_step
  cases ht : t.data with
  | nil => rw [parse_step_nonflag_app]
  | cons c rest =>
      by_cases hc : c = '-'
      · simp only [hc, if_pos]
        cases hw : st.waiting_value
        · rw [parse_step_dash_app_not_waiting _ _ hw]
          cases rest with
          | nil => rfl
          | cons c2 rest2 =>
              by_cases h2 : c2 = '-'
              · have hne : String.mk rest2 ≠ n := by
                  intro he
                  exact h (by simp [stripName, ht, hc, h2, he])
                simp only [h2, if_pos]
                exact hmGet_hmRemove_ne _ hne
              · have hne : String.mk (c2 :: rest2) ≠ n := by
                  intro he
                  exact h (by simp [stripName, ht, hc, h2, he])
                simp only [h2, if_neg, ite_false]
                exact hmGet_hmRemove_ne _ hne
        · rw [parse_step_dash_app_waiting _ _ hw]
      · simp only [hc, if_neg, ite_false]
        rw [parse_step_nonflag_app]

theorem parse_loop_required (args : List String) :
    ∀ (st : ParseState) (n : String),
    (hmGet st.app.required_flags n).isSome = true →
    (∀ t ∈ args, stripName t ≠ some n) →
    (match parse_loop args st with
     | .error r => r.1.success = false
     | .ok st' => (hmGet st'.app.required_flags n).isSome = true) := by
  induction args with
  | nil =>
      intro st n hmem _
      simpa [parse_loop] using hmem
  | cons a rest ih =>
      intro st n hmem hargs
      have ha : stripName a ≠ some n := hargs a (by simp)
      have hrest : ∀ t ∈ rest, stripName t ≠ some n := fun t htm =>
        hargs t (by simp [htm])
      unfold parse_loop
      cases hstep : parse_step st a with
      | error r =>
          simp only
          exact parse_step_error_success st a r hstep
      | ok st' =>
          simp only
          have hpre := parse_step_required_get st a n ha
          rw [hstep] at hpre
          simp only [stepApp] at hpre
          exact ih st' n (by rw [hpre]; exact hmem) hrest

theorem parse_loop_arrays (args : List String) :
    ∀ st : ParseState,
    (match parse_loop args st with
     | .error r => r.1.arrays = st.arrays
     | .ok st' => st'.arrays = st.arrays) := by
  induction args with
  | nil =>
      intro st
      simp [parse_loop]
  | cons a rest ih =>
      intro st
      unfold parse_loop
      cases hstep : parse_step st a with
      | error r =>
          have harr := parse_step_arrays st a
          rw [hstep] at harr
          simpa [stepArrays] using harr
      | ok st' =>
          simp only
          have harr := parse_step_arrays st a
          rw [hstep] at harr
          simp only [stepArrays] at harr
          have h2 := ih st'
          cases hloop : parse_loop rest st' with
          | error r =>
              rw [hloop] at h2
              simp only at h2
              simp only
              exact h2.trans harr
          | ok st'' =>
              rw [hloop] at h2
              simp only at h2
              simp only
              exact h2.trans harr

theorem parse_loop_error_success (args : List String) :
    ∀ (st : ParseState) (r : argv_t × cli_app),
    parse_loop args st = .error r → r.1.success = false := by
  induction args with
  | nil =>
      intro st r h
      simp [parse_loop] at h
  | cons a rest ih =>
      intro st r h
      unfold parse_loop at h
      cases hstep : parse_step st a with
      | error r' =>
          rw [hstep] at h
          simp only at h
          cases h
          exact parse_step_error_success st a _ hstep
      | ok st' =>
          rw [hstep] at h
          simp only at h
          exact ih st' r h

theorem parse_finish_arrays (st : ParseState) :
    (parse_finish st).1.arrays = st.arrays := by
  unfold parse_finish
  split <;> rfl

theorem parse_finish_required (st : ParseState) (n : String)
    (h : (hmGet st.app.required_flags n).isSome = true) :
    (parse_finish st).1.success = false := by
  have hne : st.app.required_flags ≠ [] :=
    hmGet_isSome_ne_nil (by simpa using h)
  have hc : hmCount st.app.required_flags ≠ 0 := by
    simpa [hmCount, List.length_eq_zero] using hne
  unfold parse_finish
  rw [if_pos]
  · rfl
  · simp [hc]

theorem parse_argv_required_omitted (argv : List String) (app : cli_app)
    (n : String) (hmem : (hmGet app.required_flags n).isSome = true)
    (hargs : ∀ t ∈ argv.drop 1, stripName t ≠ some n) :
    (parse_argv argv app).1.success = false := by
  unfold parse_argv
  have h := parse_loop_required (argv.drop 1) (parse_init app) n
    (by simpa [parse_init] using hmem) hargs
  cases hloop : parse_loop (argv.drop 1) (parse_init app) with
  | error r =>
      rw [hloop] at h
      simpa using h
  | ok st' =>
      rw [hloop] at h
      simp only at h
      exact parse_finish_required st' n h

theorem parse_argv_arrays_empty (argv : List String) (app : cli_app) :
    (parse_argv argv app).1.arrays = [] := by
  unfold parse_argv
  have h := parse_loop_arrays (argv.drop 1) (parse_init app)
  cases hloop : parse_loop (argv.drop 1) (parse_init app) with
  | error r =>
      rw [hloop] at h
      simp only at h
      simpa [parse_init] using h
  | ok st' =>
      rw [hloop] at h
      simp only at h
      rw [parse_finish_arrays]
      simpa [parse_init] using h

theorem cli_insert_command_required (app : cli_app) (n : String)
    (v : cli_value) :
    ((cli_insert_command app n v).2).required_flags = app.required_flags := by
  unfold cli_insert_command
  by_cases h : cli_has_value app n
  · simp [h]
  · cases ha : v.aliasName with
    | none => simp [h, ha]
    | some a =>
        by_cases h2 :
            cli_has_value { app with commands := hmInsert app.commands n v } a <;>
          simp [h, ha, h2]

theorem parse_step_removes_required (st : ParseState) (t : String) (m : String)
    (hw : st.waiting_value = false) (hs : stripName t = some m) :
    (stepApp (parse_step st t)).required_flags =
      hmRemove st.app.required_flags m := by
  unfold parse_step
  cases ht : t.data with
  | nil => simp [stripName, ht] at hs
  | cons c rest =>
      by_cases hc : c = '-'
      · simp only [hc, if_pos]
        rw [parse_step_dash_app_not_waiting _ _ hw]
        cases rest with
        | nil => simp [stripName, ht, hc] at hs
        | cons c2 rest2 =>
            by_cases h2 : c2 = '-'
            · simp only [h2, if_pos]
              simp [stripName, ht, hc, h2] at hs
              rw [hs]
            · simp only [h2, if_neg, ite_false]
              simp [stripName, ht, hc, h2] at hs
              rw [hs]
      · simp [stripName, ht, hc] at hs

theorem parse_step_dash_waiting_fails (st : ParseState) (t : String)
    (c : Char) (rest : List Char)
    (hw : st.waiting_value = true) (ht : t.data = c :: rest) (hc : c = '-') :
    stepSuccess (parse_step st t) = false ∧
    (stepApp (parse_step st t)).required_flags = st.app.required_flags := by
  have e : parse_step st t = parse_step_dash st rest := by
    simp [parse_step, ht, hc]
  rw [e]
  unfold parse_step_dash
  cases hpa : st.parsing_array <;>
    simp [hw, hpa, stepSuccess, stepApp, parse_fail]

/-! ## Claim theorems -/

/-- C1: the spec's scenario 1 claims that with a STATIC flag
`--verbose`/`-v` and a STRING command `build`, parsing
`prog -v build main.c` succeeds with `verbose` present and command value
`"main.c"`.  Evaluating the embedded parser at that input shows the
parse instead fails: after the static flag the parser is left awaiting a
value (the static branch at `src/cli.h:345-351` falls through to
`src/cli.h:353-356`), so `build` is swallowed as the static flag's
"value" (inserted into `statics` under the `NULL` command name) and
`main.c` is then rejected as an unknown command.  The presence entry
that was recorded is keyed `"v"`, not `"verbose"`. -/
theorem C1_scenario1_parse_fails :
    (parse_argv ["prog", "-v", "build", "main.c"] scenario1App).1.success = false ∧
    hmGet (parse_argv ["prog", "-v", "build", "main.c"] scenario1App).1.statics
      (some "v") = some () ∧
    hmGet (parse_argv ["prog", "-v", "build", "main.c"] scenario1App).1.statics
      (some "verbose") = none ∧
    hmGet (parse_argv ["prog", "-v", "build", "main.c"] scenario1App).1.statics
      none = some () := by
  decide

/-- C2 (counterexample): with the STATIC flag registered as `verbose`
with alias `v`, a successful parse that supplies the flag as `-v`
records the presence entry under the key `"v"`, and no entry exists
under the canonical name `"verbose"` — refuting the claim that both
forms key the presence entry by the canonical name. -/
theorem C2_alias_presence_not_canonical :
    (parse_argv ["prog", "build", "x", "-v", "y"] scenario1App).1.success = true ∧
    hmGet (parse_argv ["prog", "build", "x", "-v", "y"] scenario1App).1.statics
      (some "verbose") = none ∧
    hmGet (parse_argv ["prog", "build", "x", "-v", "y"] scenario1App).1.statics
      (some "v") = some () := by
  decide

/-- C2 (amended): processing a STATIC flag token records a presence
entry in the statics map keyed by the exact name supplied after
dash-stripping: the canonical name for the long form `--n`, the alias
for the short form `-a`.  The two forms therefore use different keys
whenever the alias differs from the canonical name. -/
theorem C2_static_presence_keyed_by_supplied_name
    (st : ParseState) (n a tokL tokS : String) (fl fa : cli_value)
    (hw : st.waiting_value = false)
    (htokL : tokL.data = '-' :: '-' :: n.data)
    (htokS : tokS.data = '-' :: a.data)
    (hn : hmGet st.app.flags n = some fl) (hnty : fl.type = CLI_TYPE_STATIC)
    (ha : hmGet st.app.flags a = some fa) (haty : fa.type = CLI_TYPE_STATIC)
    (hane : a.data ≠ []) (hahd : a.data.head? ≠ some '-') :
    (stepOk (parse_step st tokL) = true ∧
      stepStatics (parse_step st tokL) = hmInsert st.statics (some n) ()) ∧
    (stepOk (parse_step st tokS) = true ∧
      stepStatics (parse_step st tokS) = hmInsert st.statics (some a) ()) := by
  have estep : ∀ (m : String) (fm : cli_value), hmGet st.app.flags m = some fm →
      fm.type = CLI_TYPE_STATIC →
      stepOk (parse_step_flag { st with parsing_array := false } m) = true ∧
      stepStatics (parse_step_flag { st with parsing_array := false } m) =
        hmInsert st.statics (some m) () := by
    intro m fm hget hty
    unfold parse_step_flag
    simp [hget, hty, stepOk, stepStatics]
  have e1 : parse_step st tokL = parse_step_flag { st with parsing_array := false } n := by
    simp [parse_step, parse_step_dash, htokL, hw, String_mk_data]
  have e2 : parse_step st tokS = parse_step_flag { st with parsing_array := false } a := by
    have e : parse_step st tokS = parse_step_dash st a.data := by
      simp [parse_step, htokS]
    rw [e]
    unfold parse_step_dash
    rw [hw]
    cases had : a.data with
    | nil => exact absurd had hane
    | cons c rest =>
        have hc : c ≠ '-' := fun he => hahd (by simp [had, he])
        simp [hc, ← had, String_mk_data]
  exact ⟨by rw [e1]; exact estep n fl hn hnty, by rw [e2]; exact estep a fa ha haty⟩

/-- C2 (witness): the amended statement instantiated on the scenario-1
schema with the tokens `--verbose` and `-v`. -/
theorem C2_witness :
    (stepOk (parse_step (parse_init scenario1App) "--verbose") = true ∧
      stepStatics (parse_step (parse_init scenario1App) "--verbose") =
        hmInsert (parse_init scenario1App).statics (some "verbose") ()) ∧
    (stepOk (parse_step (parse_init scenario1App) "-v") = true ∧
      stepStatics (parse_step (parse_init scenario1App) "-v") =
        hmInsert (parse_init scenario1App).statics (some "v") ()) :=
  C2_static_presence_keyed_by_supplied_name (parse_init scenario1App)
    "verbose" "v" "--verbose" "-v" verboseEntry verboseEntry
    rfl (by decide) (by decide) (by decide) rfl (by decide) rfl
    (by decide) (by decide)

/-- C3 (counterexample): the required STRING flag is registered as
`out` with alias `o`; the input `prog -o x build y` supplies it by its
alias, yet the parse fails and `out` is still in the schema's
required-flags map afterwards: the parser removes only the typed name
(`"o"`) from `required_flags`, which is keyed by the canonical name —
refuting the claim that supplying a required flag by its alias clears
the requirement. -/
theorem C3_alias_does_not_clear_required :
    (parse_argv ["prog", "-o", "x", "build", "y"] requiredApp).1.success = false ∧
    hmGet (parse_argv ["prog", "-o", "x", "build", "y"] requiredApp).2.required_flags
      "out" = some outEntry := by
  decide

/-- C3 (amended): a required flag omitted from the input (no token's
stripped name equals its required-flags key) always yields
`success = false`; supplying the flag by its canonical long form
removes its entry from the required-flags map.  (Supplying it only by
its alias removes the alias key instead, which is not the key the
requirement is stored under, so the parse still fails — see the
counterexample.) -/
theorem C3_required_omitted_fails_and_canonical_clears :
    (∀ (argv : List String) (app : cli_app) (n : String),
      (hmGet app.required_flags n).isSome = true →
      (∀ t ∈ argv.drop 1, stripName t ≠ some n) →
      (parse_argv argv app).1.success = false) ∧
    (∀ (st : ParseState) (n tok : String),
      st.waiting_value = false → tok.data = '-' :: '-' :: n.data →
      (stepApp (parse_step st tok)).required_flags =
        hmRemove st.app.required_flags n) := by
  constructor
  · exact fun argv app n hmem hargs =>
      parse_argv_required_omitted argv app n hmem hargs
  · intro st n tok hw htok
    exact parse_step_removes_required st tok n hw
      (by simp [stripName, htok, String_mk_data])

/-- C3 (witness): the amended statement instantiated at `prog` with no
further arguments against the schema requiring `--out` (the omitted
required flag makes the parse fail), and at the token `--out` from the
initial state (the canonical form removes the requirement). -/
theorem C3_witness :
    (parse_argv ["prog"] requiredApp).1.success = false ∧
    (stepApp (parse_step (parse_init requiredApp) "--out")).required_flags =
      hmRemove (parse_init requiredApp).app.required_flags "out" :=
  ⟨C3_required_omitted_fails_and_canonical_clears.1 ["prog"] requiredApp "out"
      (by decide) (by decide),
    C3_required_omitted_fails_and_canonical_clears.2 (parse_init requiredApp)
      "out" "--out" rfl (by decide)⟩

/-- C4 (counterexample): with the ARRAY flag `--tags`, the STATIC flag
`-x` and the STRING command `build`, the input
`prog build t --tags a -x` fails: the flag token `-x` arriving during
array collection is a hard failure (`src/cli.h:272-277`), not a
graceful termination of the array.  Dropping the trailing `-x`
(termination at end-of-input) succeeds, isolating the flag token as the
cause. -/
theorem C4_flag_interrupts_array_fails :
    (parse_argv ["prog", "build", "t", "--tags", "a", "-x"] arrayApp).1.success
      = false ∧
    (parse_argv ["prog", "build", "t", "--tags", "a"] arrayApp).1.success
      = true := by
  decide

/-- C4 (amended): during array collection (`waiting_value` and
`parsing_array` both set), a flag token is a hard failure; a non-flag
token is appended to the transient array buffer in input order;
termination at end-of-input causes no failure by itself (the
termination check passes in array mode when a command was seen and no
required flag is pending).  Moreover the collected buffer is never
inserted into the result's `arrays` map, which is empty in every
result. -/
theorem C4_array_collection_behavior :
    (∀ (st : ParseState) (t : String) (c : Char) (rest : List Char),
      st.waiting_value = true → st.parsing_array = true →
      t.data = c :: rest → c = '-' →
      stepSuccess (parse_step st t) = false) ∧
    (∀ (st : ParseState) (t : String),
      st.waiting_value = true → st.parsing_array = true →
      t.data.head? ≠ some '-' →
      parse_step st t =
        .ok { st with array_values := st.array_values.map (fun v => v ++ [t]) }) ∧
    (∀ st : ParseState,
      st.parsing_array = true → st.command_name ≠ none →
      hmCount st.app.required_flags = 0 →
      (parse_finish st).1.success = true) ∧
    (∀ (argv : List String) (app : cli_app),
      (parse_argv argv app).1.arrays = []) := by
  refine ⟨?_, ?_, ?_, ?_⟩
  · intro st t c rest hw hpa ht hc
    exact (parse_step_dash_waiting_fails st t c rest hw ht hc).1
  · intro st t hw hpa hhd
    cases ht : t.data with
    | nil => simp [parse_step, parse_step_nonflag, ht, hw, hpa]
    | cons c rest =>
        have hc : c ≠ '-' := fun he => hhd (by simp [ht, he])
        simp [parse_step, parse_step_nonflag, ht, hc, hw, hpa]
  · intro st hpa hcn hrq
    unfold parse_finish
    rw [if_neg]
    simp [hpa, hcn, hrq]
  · exact fun argv app => parse_argv_arrays_empty argv app

/-- C4 (witness): the amended statement instantiated on a concrete
array-collection state (the state reached after `prog build t --tags`)
with the tokens `-x` and `a`, on the same state for the end-of-input
check, and on the counterexample input for the empty-arrays clause. -/
theorem C4_witness :
    (stepSuccess (parse_step c4WitnessState "-x") = false) ∧
    (parse_step c4WitnessState "a" =
      .ok { c4WitnessState with
              array_values := c4WitnessState.array_values.map (fun v => v ++ ["a"]) }) ∧
    ((parse_finish c4WitnessState).1.success = true) ∧
    ((parse_argv ["prog", "build", "t", "--tags", "a", "-x"] arrayApp).1.arrays = []) :=
  ⟨C4_array_collection_behavior.1 c4WitnessState "-x" '-' ['x'] rfl rfl rfl rfl,
    C4_array_collection_behavior.2.1 c4WitnessState "a" rfl rfl (by decide),
    C4_array_collection_behavior.2.2.1 c4WitnessState rfl (by decide) (by decide),
    C4_array_collection_behavior.2.2.2 ["prog", "build", "t", "--tags", "a", "-x"]
      arrayApp⟩

/-- C5: the spec claims a consumed scalar flag value is inserted into
the matching per-kind map keyed by the flag's name.  Evaluating the
embedded parser on `prog run x -n 5` (INTEGER flag `-n`, STRING command
`run`) shows the integer cell is inserted under the key `"run"` — the C
variable `command_name` at `src/cli.h:415` — and no entry exists under
the flag's name `"n"`, even though the parse succeeds. -/
theorem C5_integer_value_keyed_by_command_name :
    (parse_argv ["prog", "run", "x", "-n", "5"] integerApp).1.success = true ∧
    hmGet (parse_argv ["prog", "run", "x", "-n", "5"] integerApp).1.integers
      (some "n") = none ∧
    hmGet (parse_argv ["prog", "run", "x", "-n", "5"] integerApp).1.integers
      (some "run") = some { num_val := 5 } := by
  decide

/-- C6 (counterexample): after registering the flag `a`, registering a
flag `b` whose alias is `a` returns `false` but does **not** leave the
schema unmodified: the canonical key `b` was inserted into the flags map
before the alias collision was detected (`src/app/app.h:151` precedes
the check at `src/app/app.h:157`), so the entry count grows from 1
to 2. -/
theorem C6_alias_collision_mutates_schema :
    (cli_insert_flag (cli_insert_flag cli_new_app "a" xEntry).2 "b" bAliasEntry).1
      = false ∧
    hmGet (cli_insert_flag (cli_insert_flag cli_new_app "a" xEntry).2
      "b" bAliasEntry).2.flags "b" = some bAliasEntry ∧
    hmCount ((cli_insert_flag cli_new_app "a" xEntry).2).flags = 1 ∧
    hmCount (cli_insert_flag (cli_insert_flag cli_new_app "a" xEntry).2
      "b" bAliasEntry).2.flags = 2 := by
  decide

/-- C6 (amended): a registration whose name already exists returns
`false` and leaves the schema unmodified; a registration whose name is
fresh but whose alias already exists (after the name insertion) returns
`false` with the canonical name key already inserted into the
respective map — no alias key and, for flags, no required entry — so
the schema is modified in exactly that way.  Stated for both
`cli_insert_flag` and `cli_insert_command`. -/
theorem C6_registration_collision_behavior :
    (∀ (app : cli_app) (n : String) (v : cli_value),
      cli_has_value app n = true → cli_insert_flag app n v = (false, app)) ∧
    (∀ (app : cli_app) (n : String) (v : cli_value) (a : String),
      cli_has_value app n = false → v.aliasName = some a →
      cli_has_value { app with flags := hmInsert app.flags n v } a = true →
      cli_insert_flag app n v =
        (false, { app with flags := hmInsert app.flags n v })) ∧
    (∀ (app : cli_app) (n : String) (v : cli_value),
      cli_has_value app n = true → cli_insert_command app n v = (false, app)) ∧
    (∀ (app : cli_app) (n : String) (v : cli_value) (a : String),
      cli_has_value app n = false → v.aliasName = some a →
      cli_has_value { app with commands := hmInsert app.commands n v } a = true →
      cli_insert_command app n v =
        (false, { app with commands := hmInsert app.commands n v })) := by
  refine ⟨?_, ?_, ?_, ?_⟩
  · intro app n v h
    simp [cli_insert_flag, h]
  · intro app n v a hn ha hcol
    simp [cli_insert_flag, hn, ha, hcol]
  · intro app n v h
    simp [cli_insert_command, h]
  · intro app n v a hn ha hcol
    simp [cli_insert_command, hn, ha, hcol]

/-- C6 (witness): the amended statement instantiated on the
counterexample schema: a duplicate-name registration of `a` leaves the
one-entry schema unchanged, and the alias-colliding registration of `b`
returns `false` with exactly the name key inserted. -/
theorem C6_witness :
    cli_insert_flag (cli_insert_flag cli_new_app "a" xEntry).2 "a" xEntry =
      (false, (cli_insert_flag cli_new_app "a" xEntry).2) ∧
    cli_insert_flag (cli_insert_flag cli_new_app "a" xEntry).2 "b" bAliasEntry =
      (false, { (cli_insert_flag cli_new_app "a" xEntry).2 with
                  flags := hmInsert ((cli_insert_flag cli_new_app "a" xEntry).2).flags
                    "b" bAliasEntry }) :=
  ⟨C6_registration_collision_behavior.1
      (cli_insert_flag cli_new_app "a" xEntry).2 "a" xEntry (by decide),
    C6_registration_collision_behavior.2.1
      (cli_insert_flag cli_new_app "a" xEntry).2 "b" bAliasEntry "a"
      (by decide) (by decide) (by decide)⟩

/-- C7: if the per-token loop runs to completion (no early return), the
returned result has `success = false` exactly when (a) a scalar value
is still awaited outside array mode, or (b) no command token was ever
recorded, or (c) the required-flags tracking map is non-empty
(`src/cli.h:546-558`). -/
theorem C7_termination_check (argv : List String) (app : cli_app)
    (st : ParseState)
    (h : parse_loop (argv.drop 1) (parse_init app) = .ok st) :
    ((parse_argv argv app).1.success = false ↔
      (st.waiting_value = true ∧ st.parsing_array = false) ∨
      st.command_name = none ∨ hmCount st.app.required_flags ≠ 0) := by
  have hcd : ((st.waiting_value && !st.parsing_array)
        || st.command_name = none
        || hmCount st.app.required_flags ≠ 0) = true ↔
      ((st.waiting_value = true ∧ st.parsing_array = false) ∨
        st.command_name = none ∨ hmCount st.app.required_flags ≠ 0) := by
    simp [Bool.and_eq_true, Bool.not_eq_true', or_assoc]
  unfold parse_argv
  rw [h]
  change (parse_finish st).1.success = false ↔ _
  unfold parse_finish
  split
  · rename_i hc
    simp only [parse_fail]
    simpa using hcd.mp hc
  · rename_i hc
    have hnd := fun hd => hc (hcd.mpr hd)
    simpa using hnd

/-- C7 (witness): the termination-check characterisation instantiated
at `prog` with no further arguments against the empty schema: the loop
trivially completes in its initial state, and the parse fails precisely
because no command was recorded. -/
theorem C7_witness :
    (parse_argv ["prog"] cli_new_app).1.success = false ↔
      ((parse_init cli_new_app).waiting_value = true ∧
        (parse_init cli_new_app).parsing_array = false) ∨
      (parse_init cli_new_app).command_name = none ∨
      hmCount (parse_init cli_new_app).app.required_flags ≠ 0 :=
  C7_termination_check ["prog"] cli_new_app (parse_init cli_new_app) rfl

/-- C8: generating help text leaves the schema exactly as it was (the
embedded `cli_generate_help` threads the schema through unchanged on
every path, mirroring the read-only `const` use in
`src/help/generator.h:152-203`), and returns `none` whenever the
schema, the application name, or the description is absent. -/
theorem C8_generate_help_frame_and_null
    (app : Option cli_app) (name desc : Option String) (pad : Nat) :
    (cli_generate_help app name desc pad).2 = app ∧
    ((app = none ∨ name = none ∨ desc = none) →
      (cli_generate_help app name desc pad).1 = none) := by
  constructor
  · cases app <;> cases name <;> cases desc <;> rfl
  · intro h
    cases app <;> cases name <;> cases desc <;>
      simp [cli_generate_help] <;> rcases h with h | h | h <;> simp at h

/-- C8 (witness): generating help for the scenario-1 schema with a
missing description returns no text and hands back the schema
unchanged. -/
theorem C8_witness :
    (cli_generate_help (some scenario1App) (some "app") none 20).2 =
      some scenario1App ∧
    (cli_generate_help (some scenario1App) (some "app") none 20).1 = none :=
  ⟨(C8_generate_help_frame_and_null (some scenario1App) (some "app") none 20).1,
    (C8_generate_help_frame_and_null (some scenario1App) (some "app") none 20).2
      (Or.inr (Or.inr rfl))⟩

/-- C9: `cli_insert_command` never touches the `required_flags` map
(`src/app/app.h:188-220` has no required handling), so after any
sequence of command registrations — whatever each entry's `required`
field — the required-flags map is exactly what it was, and a command
marked required can never contribute to the unsatisfied-required
failure of `src/cli.h:548`. -/
theorem C9_insert_command_preserves_required_flags
    (app : cli_app) (regs : List (String × cli_value)) :
    (regs.foldl (fun a p => (cli_insert_command a p.1 p.2).2) app).required_flags
      = app.required_flags := by
  induction regs generalizing app with
  | nil => rfl
  | cons p rest ih =>
      rw [List.foldl_cons, ih, cli_insert_command_required]

/-- C10 (counterexample): in `prog -a --out` against a schema whose
required flag is `out`, the token `--out` is encountered while the
scalar value of `-a` is still owed, so the parse fails **before** the
removal at `src/cli.h:287` runs: afterwards `out` is still in the
schema's required-flags map — refuting the claim that every
encountered flag token's stripped name is removed. -/
theorem C10_awaiting_value_skips_removal :
    (parse_argv ["prog", "-a", "--out"] awaitApp).1.success = false ∧
    hmGet (parse_argv ["prog", "-a", "--out"] awaitApp).2.required_flags "out"
      = some outEntry := by
  decide

/-- C10 (amended): a flag token (other than the bare `-`) encountered
while **no** value is awaited has its stripped name removed from the
schema's required-flags map before the flag is resolved, on every
outcome of the step — including the unknown-flag failure; a flag token
arriving while a value is awaited fails immediately with the
required-flags map untouched. -/
theorem C10_required_removal_behavior :
    (∀ (st : ParseState) (t m : String),
      st.waiting_value = false → stripName t = some m →
      (stepApp (parse_step st t)).required_flags =
        hmRemove st.app.required_flags m) ∧
    (∀ (st : ParseState) (t : String) (c : Char) (rest : List Char),
      st.waiting_value = true → t.data = c :: rest → c = '-' →
      stepSuccess (parse_step st t) = false ∧
      (stepApp (parse_step st t)).required_flags = st.app.required_flags) := by
  constructor
  · intro st t m hw hs
    exact parse_step_removes_required st t m hw hs
  · intro st t c rest hw ht hc
    exact parse_step_dash_waiting_fails st t c rest hw ht hc

/-- C10 (witness): the amended statement instantiated at the token
`--nosuch` (an unregistered flag) from the initial state over the
required-flag schema, and at the token `--out` from a state awaiting a
scalar value. -/
theorem C10_witness :
    (stepApp (parse_step (parse_init requiredApp) "--nosuch")).required_flags =
      hmRemove (parse_init requiredApp).app.required_flags "nosuch" ∧
    (stepSuccess (parse_step c10WaitState "--out") = false ∧
      (stepApp (parse_step c10WaitState "--out")).required_flags =
        c10WaitState.app.required_flags) :=
  ⟨C10_required_removal_behavior.1 (parse_init requiredApp) "--nosuch" "nosuch"
      rfl (by decide),
    C10_required_removal_behavior.2 c10WaitState "--out" '-'
      ['-', 'o', 'u', 't'] rfl rfl rfl⟩

end Cli
